import Mathlib

/-!
Shallow embedding of the tau-core execution client (Go), covering:
  - error classification and retry (`isRetryableError`, `calculateBackoff`,
    `doWithRetry` in the client package),
  - the single-attempt execute path and its health-flag updates,
  - `ExecuteStream`'s streaming-support guard (`protocol.SupportsStreaming`),
  - the provider streaming decode workers (`OllamaProvider.ProcessStreamResponse`,
    `AzureProvider.ProcessStreamResponse`),
  - Ollama base-URL normalization and endpoint resolution
    (`NewOllama`, `OllamaProvider.Endpoint`),
  - vision request marshaling (`BaseProvider.marshalVision`).

Conventions: Go `time.Duration` (an int64 of nanoseconds) is modelled as `Int`;
the `min(attempt, 10)` cap in the source keeps the exponential factor at most
2^10, so for realistic backoff configurations (far below ~104 days) the Go
int64 arithmetic never overflows and agrees with `Int`.  Go `error` values and
their `errors.Is` / `errors.As` unwrap chains are modelled by the inductive
`GoError`, where `fmt.Errorf("...: %w", e)` is `GoError.wrapped msg e` and a
`*url.Error` wrapper is `GoError.urlError e`.  Nondeterminism from
`rand.Int63n` is modelled by passing the drawn value as an argument.
Effectful pipelines become functions over explicit environments and oracles;
streaming bodies are modelled as the list of lines the reader yields.
-/

deriving instance DecidableEq for Except

namespace TauCore

/-! ## Go string primitives

The Go standard-library string functions used by the sources, implemented
over the character list of a `String` (ASCII whitespace for
`strings.TrimSpace`, which suffices for the SSE framing the workers handle). -/

/-- `strings.TrimSpace` (ASCII whitespace). -/
def goTrimSpace (s : String) : String :=
  ⟨((s.data.dropWhile Char.isWhitespace).reverse.dropWhile Char.isWhitespace).reverse⟩

/-- `strings.HasPrefix`. -/
def goStartsWith (s pre : String) : Bool :=
  pre.data.isPrefixOf s.data

/-- `strings.HasSuffix`. -/
def goEndsWith (s suf : String) : Bool :=
  suf.data.reverse.isPrefixOf s.data.reverse

/-- Drop the first `n` characters (the second half of `strings.CutPrefix` /
`strings.TrimPrefix` once the marker length is known). -/
def goDropLeft (s : String) (n : Nat) : String :=
  ⟨s.data.drop n⟩

/-- `strings.TrimSuffix`. -/
def goTrimEnd (s suf : String) : String :=
  if goEndsWith s suf then ⟨s.data.take (s.data.length - suf.data.length)⟩ else s

/-- Go `error` values as seen by the client's retry classifier.
`httpStatus` is `client.HTTPStatusError` (status code, status text, body bytes);
`contextCanceled` / `deadlineExceeded` are `context.Canceled` /
`context.DeadlineExceeded`; `netOpError` is a `*net.OpError`; `dnsError` is a
`*net.DNSError` with its `Temporary()` and `Timeout()` results; `urlError e` is
a `*url.Error` whose `Err` field is `e` (it unwraps to `e`); `wrapped msg e` is
`fmt.Errorf(msg ++ ": %w", e)`; `other` is any other leaf error. -/
inductive GoError : Type
  | httpStatus (statusCode : Nat) (status : String) (body : List Nat)
  | contextCanceled
  | deadlineExceeded
  | netOpError
  | dnsError (temporary : Bool) (timeout : Bool)
  | urlError (err : GoError)
  | wrapped (msg : String) (err : GoError)
  | other (msg : String)
deriving DecidableEq, Repr

namespace GoError

/-- `errors.Is(err, context.Canceled)`: the unwrap chain (through `%w` wrappers
and `*url.Error`) contains `context.Canceled`. -/
def isCanceled : GoError → Bool
  | .contextCanceled => true
  | .urlError e => isCanceled e
  | .wrapped _ e => isCanceled e
  | _ => false

/-- `errors.Is(err, context.DeadlineExceeded)` over the unwrap chain. -/
def isDeadlineExceeded : GoError → Bool
  | .deadlineExceeded => true
  | .urlError e => isDeadlineExceeded e
  | .wrapped _ e => isDeadlineExceeded e
  | _ => false

/-- `errors.As(err, &httpErr)` for `*client.HTTPStatusError`: the first
`HTTPStatusError` in the unwrap chain, if any. -/
def asHTTPStatus : GoError → Option (Nat × String × List Nat)
  | .httpStatus c s b => some (c, s, b)
  | .urlError e => asHTTPStatus e
  | .wrapped _ e => asHTTPStatus e
  | _ => none

/-- `errors.As(err, &netOpErr)` for `*net.OpError` over the unwrap chain. -/
def asNetOp : GoError → Bool
  | .netOpError => true
  | .urlError e => asNetOp e
  | .wrapped _ e => asNetOp e
  | _ => false

/-- `errors.As(err, &dnsErr)` for `*net.DNSError`: the first DNS error in the
unwrap chain, as its `(Temporary(), Timeout())` pair. -/
def asDNS : GoError → Option (Bool × Bool)
  | .dnsError t tmo => some (t, tmo)
  | .urlError e => asDNS e
  | .wrapped _ e => asDNS e
  | _ => none

/-- `errors.As(err, &urlErr)` for `*url.Error`: the `Err` field of the first
`*url.Error` in the unwrap chain. -/
def asURL : GoError → Option GoError
  | .urlError e => some e
  | .wrapped _ e => asURL e
  | _ => none

theorem asURL_sizeOf_lt : ∀ (e u : GoError), asURL e = some u → sizeOf u < sizeOf e := by
  intro e
  induction e with
  | urlError e ih =>
      intro u h
      simp only [asURL, Option.some.injEq] at h
      subst h
      simp
  | wrapped msg e ih =>
      intro u h
      simp only [asURL] at h
      have := ih u h
      simp
      omega
  | _ => intro u h; simp [asURL] at h

end GoError

open GoError in
/-- `client.isRetryableError`: never retry context cancellation/deadline;
retry HTTP 429/502/503/504; retry `*net.OpError`; retry temporary/timeout DNS
errors; for a `*url.Error`, classify its wrapped cause recursively; otherwise
do not retry. -/
def isRetryableError (err : GoError) : Bool :=
  if isCanceled err || isDeadlineExceeded err then
    false
  else
    match asHTTPStatus err with
    | some (code, _, _) =>
        code == 429 || code == 502 || code == 503 || code == 504
    | none =>
      if asNetOp err then
        true
      else
        match asDNS err with
        | some (temp, timeout) => temp || timeout
        | none =>
          match h : asURL err with
          | some inner => isRetryableError inner
          | none => false
termination_by sizeOf err
decreasing_by exact GoError.asURL_sizeOf_lt err inner h

/-- `config.RetryConfig`.  `MaxRetries` is a Go `int` used only as a
non-negative retry budget; `InitialBackoff` and `MaxBackoff` are
`config.Duration` (int64 nanoseconds), modelled as `Int`. -/
structure RetryConfig where
  maxRetries : Nat
  initialBackoff : Int
  maxBackoff : Int
  jitter : Bool
deriving DecidableEq, Repr

/-- `client.calculateBackoff`.  `randJ` is the value drawn by
`rand.Int63n(int64(jitterRange) * 2)`, i.e. a uniform integer in
`[0, 2*jitterRange)`; the Go code subtracts `jitterRange` from it to get the
signed jitter.  `Int.tdiv` is Go's `/` on integers (truncation toward
zero). -/
def calculateBackoff (attempt : Nat) (cfg : RetryConfig) (randJ : Int) : Int :=
  let maxAttempt := min attempt 10
  let delay := cfg.initialBackoff * (2 ^ maxAttempt)
  let jittered := if cfg.jitter then delay + (randJ - Int.tdiv delay 4) else delay
  min jittered cfg.maxBackoff

/-- One cell of the retry loop's environment: `ctxErr k` is `ctx.Err()` as
observed before attempt `k` (`none` = context alive), `backoffCancel k` is the
context error delivered while waiting out the backoff that follows attempt `k`
(`none` = the wait completes), and `op k` is the result of attempt `k` of the
underlying operation. -/
structure RetryEnv (α : Type) where
  ctxErr : Nat → Option GoError
  backoffCancel : Nat → Option GoError
  op : Nat → Except GoError α

/-- The loop body of `client.doWithRetry`, starting at attempt index `attempt`
with `remaining = cfg.MaxRetries - attempt` attempts left after this one.
Returns the number of invocations of the operation performed from this point
on, paired with the final result.  Mirrors the source: check `ctx.Err()` before
the attempt; run the operation; return success immediately; return
non-retryable errors immediately; sleep (cancellably) only when attempts
remain; after the last attempt, wrap the last error with the
max-retries-exceeded marker. -/
def doWithRetryFrom (cfg : RetryConfig) (env : RetryEnv α) :
    (attempt : Nat) → (remaining : Nat) → Nat × Except GoError α
  | attempt, remaining =>
    match env.ctxErr attempt with
    | some e => (0, .error (.wrapped "operation cancelled" e))
    | none =>
      match env.op attempt with
      | .ok v => (1, .ok v)
      | .error e =>
        if isRetryableError e then
          match remaining with
          | 0 =>
              (1, .error (.wrapped
                ("max retries (" ++ toString cfg.maxRetries ++ ") exceeded") e))
          | r + 1 =>
            match env.backoffCancel attempt with
            | some ce => (1, .error (.wrapped "operation cancelled during backoff" ce))
            | none =>
                let rest := doWithRetryFrom cfg env (attempt + 1) r
                (rest.1 + 1, rest.2)
        else
          (1, .error e)
termination_by structural _ remaining => remaining

/-- `client.doWithRetry`: run the loop from attempt 0 with `cfg.MaxRetries`
further attempts allowed.  Returns (total operation invocations, result). -/
def doWithRetry (cfg : RetryConfig) (env : RetryEnv α) : Nat × Except GoError α :=
  doWithRetryFrom cfg env 0 cfg.maxRetries

/-- A `RetryEnv` whose context is never cancelled. -/
def liveEnv (op : Nat → Except GoError α) : RetryEnv α :=
  { ctxErr := fun _ => none, backoffCancel := fun _ => none, op := op }

/-! ## Protocol (pkg/protocol/protocol.go) -/

/-- `protocol.Protocol` is a string type in the source (`type Protocol string`). -/
abbrev Protocol := String

namespace Protocol

/-- `protocol.Chat`. -/
def chat : Protocol := "chat"

/-- `protocol.Vision`. -/
def vision : Protocol := "vision"

/-- `protocol.Tools`. -/
def tools : Protocol := "tools"

/-- `protocol.Embeddings`. -/
def embeddings : Protocol := "embeddings"

/-- `Protocol.SupportsStreaming`: chat, vision and tools stream; embeddings
does not; any other string falls to the default case, `false`. -/
def SupportsStreaming (p : Protocol) : Bool :=
  if p = chat ∨ p = vision ∨ p = tools then true
  else if p = embeddings then false
  else false

end Protocol

/-! ## Streaming decode workers (pkg/providers/ollama.go, azure.go)

The decode worker goroutine of `ProcessStreamResponse` is modelled as a pure
function from the list of lines the buffered reader yields (each line already
without its trailing newline, the body ending at EOF with no hard read error
and with no consumer cancellation) to the list of chunks sent on the output
channel, in send order.  `response.ParseStreamChunk` is passed in as the
`parse` argument (`none` = the chunk decoder returned an error); the worker
never inspects the decoded chunk, so the chunk type is a parameter. -/

/-- `strings.CutPrefix(line, "data: ")` as used by the Ollama worker: strip
the SSE data marker when present, otherwise keep the line. -/
def cutDataMarker (line : String) : String :=
  if goStartsWith line "data: " then goDropLeft line 6 else line

/-- The Ollama decode worker (`OllamaProvider.ProcessStreamResponse` body
loop): trim each line; skip blanks; stop at the literal line `data: [DONE]`;
strip the `data: ` SSE marker when present; on decode failure skip the line
and continue; otherwise emit the chunk. -/
def ollamaProcessLines (parse : String → Option α) : List String → List α
  | [] => []
  | l :: ls =>
    let line := goTrimSpace l
    if line = "" then ollamaProcessLines parse ls
    else if line = "data: [DONE]" then []
    else
      match parse (cutDataMarker line) with
      | none => ollamaProcessLines parse ls
      | some c => c :: ollamaProcessLines parse ls

/-- The Azure decode worker (`AzureProvider.ProcessStreamResponse` body loop):
trim each line; skip blanks; skip lines without the `data: ` SSE marker; strip
the marker; stop when the remaining payload is `[DONE]`; on decode failure
skip the line and continue; otherwise emit the chunk. -/
def azureProcessLines (parse : String → Option α) : List String → List α
  | [] => []
  | l :: ls =>
    let line := goTrimSpace l
    if line = "" then azureProcessLines parse ls
    else if ¬ goStartsWith line "data: " then azureProcessLines parse ls
    else
      let data := goDropLeft line 6
      if data = "[DONE]" then []
      else
        match parse data with
        | none => azureProcessLines parse ls
        | some c => c :: azureProcessLines parse ls

/-! ## Ollama base URL and endpoints (pkg/providers/ollama.go) -/

/-- The base-URL normalization performed by `NewOllama`: when the base URL
does not already end in `/v1`, drop a single trailing slash
(`strings.TrimSuffix(baseURL, "/")`) and append `/v1`. -/
def normalizeOllamaBaseURL (baseURL : String) : String :=
  if goEndsWith baseURL "/v1" then baseURL
  else goTrimEnd baseURL "/" ++ "/v1"

/-- `OllamaProvider.Endpoint`: map chat/vision/tools to `/chat/completions`
and embeddings to `/embeddings`, appended to the provider's (normalized) base
URL; any other protocol is unsupported. -/
def ollamaEndpoint (baseURL : String) (proto : Protocol) : Except String String :=
  if proto = Protocol.chat ∨ proto = Protocol.vision ∨ proto = Protocol.tools then
    .ok (baseURL ++ "/chat/completions")
  else if proto = Protocol.embeddings then
    .ok (baseURL ++ "/embeddings")
  else
    .error ("protocol " ++ proto ++ " not supported by Ollama")

/-! ## Vision marshaling (pkg/providers/base.go, marshalVision)

`protocol.Message.Content` is `any` in the source; `marshalVision` accepts a
plain string and rejects everything else, and its output content is a
`[]map[string]any` of one text block followed by image blocks.  The content
is modelled by `MessageContent`: `text` for a plain string, `blocks` for the
structured array (an image block's `image_url` map is its URL together with
the copied-in `vision_options` entries, kept as an association list). -/

/-- One element of the structured content array built by `marshalVision`:
either `{type: "text", text: s}` or `{type: "image_url", image_url: {url: u} ∪ opts}`. -/
inductive ContentBlock : Type
  | textBlock (text : String)
  | imageBlock (url : String) (opts : List (String × String))
deriving DecidableEq, Repr

/-- `protocol.Message.Content` as `marshalVision` distinguishes it: a plain
string, a structured block array, or any other value (which the vision
transformation rejects). -/
inductive MessageContent : Type
  | text (s : String)
  | blocks (bs : List ContentBlock)
  | otherContent
deriving DecidableEq, Repr

/-- `protocol.Message`: `{Role, Content}`. -/
structure Message where
  role : String
  content : MessageContent
deriving DecidableEq, Repr

/-- `providers.VisionData`: model name, messages, image URLs, per-image
`VisionOptions` and request-level `Options` (both kept abstract as
association lists; `marshalVision` only copies them). -/
structure VisionData where
  model : String
  messages : List Message
  images : List String
  visionOptions : List (String × String)
  options : List (String × String)
deriving DecidableEq, Repr

/-- The pre-serialization value `marshalVision` builds: the `model`, the
transformed `messages` array and the flattened-in `options`.
(`json.Marshal` of this map is not modelled; the claims are about the
messages array.) -/
structure VisionWire where
  model : String
  messages : List Message
  options : List (String × String)
deriving DecidableEq, Repr

/-- `BaseProvider.marshalVision`: fail on empty messages; fail on empty
images; fail when the last message's content is not a plain string; otherwise
replace the last message by a copy whose content is one text block followed
by one image block per image URL in order (each image block carrying the
copied `VisionOptions`), leaving every other message unchanged (the source
copies the slice before assigning, so the input list is never mutated). -/
def marshalVision (d : VisionData) : Except String VisionWire :=
  if d.messages.length = 0 then
    .error "messages cannot be empty for vision requests"
  else if d.images.length = 0 then
    .error "images cannot be empty for vision requests"
  else
    let lastIdx := d.messages.length - 1
    let message := d.messages.getD lastIdx ⟨"", .otherContent⟩
    match message.content with
    | .text textContent =>
        let content := ContentBlock.textBlock textContent ::
          d.images.map (fun imgURL => ContentBlock.imageBlock imgURL d.visionOptions)
        let transformedMessages :=
          d.messages.set lastIdx ⟨message.role, .blocks content⟩
        .ok { model := d.model, messages := transformedMessages, options := d.options }
    | _ => .error "message content must be a string for vision transformation"

/-! ## Execution client (client package, part of src/unnamed)

`client.execute` (the single attempt run under `doWithRetry`) touches the
network and the health flag.  Its effectful stages are modelled by an
`ExecOutcome` describing how the attempt went, and `executeAttempt` maps the
prior health-flag value and the outcome to the health flag after the attempt
together with the attempt's returned error, mirroring the source branch by
branch: marshal / prepare / HTTP-request-creation failures return early
without touching the flag; transport errors, non-OK statuses and response
processing failures set it to `false`; success sets it to `true`. -/

/-- How one `client.execute` attempt resolves. -/
inductive ExecOutcome : Type
  | marshalError (e : GoError)
  | prepareError (e : GoError)
  | createRequestError (e : GoError)
  | transportError (e : GoError)
  | badStatus (code : Nat) (status : String) (body : List Nat)
  | processResponseError (e : GoError)
  | success
deriving DecidableEq, Repr

/-- `client.execute`, as (prior health flag, outcome) ↦ (health flag after the
attempt, attempt result).  Each arm is one return path of the source. -/
def executeAttempt (healthy : Bool) : ExecOutcome → Bool × Except GoError Unit
  | .marshalError e => (healthy, .error (.wrapped "failed to marshal request" e))
  | .prepareError e => (healthy, .error (.wrapped "failed to prepare request" e))
  | .createRequestError e => (healthy, .error (.wrapped "failed to create HTTP request" e))
  | .transportError e => (false, .error e)
  | .badStatus code status body => (false, .error (.httpStatus code status body))
  | .processResponseError e => (false, .error e)
  | .success => (true, .ok ())

/-- Stages of `client.executeStream` that perform work, in the order the
source runs them. -/
inductive StreamEffect : Type
  | marshal
  | prepareStream
  | httpSend
deriving DecidableEq, Repr

/-- Environment for one `client.executeStream` run: the results of
`req.Marshal()`, `provider.PrepareStreamRequest` (URL and body of the provider
request), the HTTP send (status code and body lines on success), and
`provider.ProcessStreamResponse` over the body lines. -/
structure StreamEnv (α : Type) where
  marshalResult : Except GoError (List Nat)
  prepareResult : List Nat → Except GoError (String × List Nat)
  sendResult : String × List Nat → Except GoError (Nat × List String)
  processStream : List String → Except GoError (List α)

/-- `client.executeStream`: marshal, prepare, send, check the status code,
then hand the body to the provider's stream processor.  Returns the list of
effects performed alongside the result, so that theorems can state that a
path performed no marshal and no HTTP attempt. -/
def executeStream (env : StreamEnv α) : List StreamEffect × Except GoError (List α) :=
  match env.marshalResult with
  | .error e => ([.marshal], .error (.wrapped "failed to marshal request" e))
  | .ok body =>
    match env.prepareResult body with
    | .error e => ([.marshal, .prepareStream], .error (.wrapped "failed to prepare streaming request" e))
    | .ok preq =>
      match env.sendResult preq with
      | .error e =>
          ([.marshal, .prepareStream, .httpSend], .error (.wrapped "streaming request failed" e))
      | .ok (status, bodyLines) =>
        if status ≠ 200 then
          ([.marshal, .prepareStream, .httpSend],
            .error (.other ("streaming request failed with status " ++ toString status)))
        else
          match env.processStream bodyLines with
          | .error e => ([.marshal, .prepareStream, .httpSend], .error e)
          | .ok chunks => ([.marshal, .prepareStream, .httpSend], .ok chunks)

/-- `client.ExecuteStream`: check `proto.SupportsStreaming()` before doing any
work; on failure return the unsupported-protocol error with no effects and no
retry; otherwise run the single (never retried) streaming attempt. -/
def ExecuteStream (proto : Protocol) (env : StreamEnv α) :
    List StreamEffect × Except GoError (List α) :=
  if ¬ proto.SupportsStreaming then
    ([], .error (.other ("protocol " ++ proto ++ " does not support streaming")))
  else
    executeStream env

/-- A sample chunk decoder standing in for `response.ParseStreamChunk` in
concrete streaming scenarios: decodes the payloads `c1`/`c2` and fails on
everything else. -/
def sampleParse : String → Option Nat := fun s =>
  if s = "c1" then some 1 else if s = "c2" then some 2 else none

/-! ## Theorems -/

/-- `isRetryableError` on a bare `HTTPStatusError`: retryable exactly for
status 429, 502, 503 or 504. -/
theorem isRetryableError_httpStatus (c : Nat) (s : String) (b : List Nat) :
    isRetryableError (.httpStatus c s b) =
      (c == 429 || c == 502 || c == 503 || c == 504) := by
  unfold isRetryableError
  rfl

/-- `isRetryableError` never retries `context.Canceled`. -/
theorem isRetryableError_contextCanceled :
    isRetryableError .contextCanceled = false := by
  unfold isRetryableError
  rfl

/-- `isRetryableError` never retries `context.DeadlineExceeded`. -/
theorem isRetryableError_deadlineExceeded :
    isRetryableError .deadlineExceeded = false := by
  unfold isRetryableError
  rfl

/-- Loop invariant for `doWithRetry` when the context stays alive and every
attempt fails with a retryable error: starting at attempt `a` with `r`
attempts remaining performs `r + 1` more attempts and wraps the last error. -/
theorem doWithRetryFrom_allRetryable {α : Type} (cfg : RetryConfig) (env : RetryEnv α)
    (e : Nat → GoError)
    (hctx : ∀ k, env.ctxErr k = none)
    (hbc : ∀ k, env.backoffCancel k = none)
    (hop : ∀ k, env.op k = .error (e k))
    (hretry : ∀ k, isRetryableError (e k) = true) :
    ∀ (r a : Nat), doWithRetryFrom cfg env a r =
      (r + 1, .error (.wrapped ("max retries (" ++ toString cfg.maxRetries ++ ") exceeded")
        (e (a + r)))) := by
  intro r
  induction r with
  | zero =>
      intro a
      simp only [doWithRetryFrom, hctx a, hop a, hretry a]
      simp
  | succ r ih =>
      intro a
      simp only [doWithRetryFrom, hctx a, hop a, hretry a, hbc a, ih (a + 1)]
      have hidx : a + 1 + r = a + (r + 1) := by omega
      rw [hidx]
      simp

/-- C1: if every attempt fails with an HTTP status error whose status is in
{429, 502, 503, 504} and the context stays alive, `Execute`'s retry loop with
`MaxRetries = N` invokes the operation exactly `N + 1` times and returns the
last attempt's error wrapped with the max-retries-exceeded marker. -/
theorem execute_retry_exhausts_on_retryable_status {α : Type}
    (cfg : RetryConfig) (code : Nat → Nat) (st : Nat → String) (bd : Nat → List Nat)
    (hcode : ∀ k, code k = 429 ∨ code k = 502 ∨ code k = 503 ∨ code k = 504) :
    doWithRetry cfg
        (liveEnv (fun k => (Except.error (GoError.httpStatus (code k) (st k) (bd k)) :
          Except GoError α))) =
      (cfg.maxRetries + 1,
        Except.error (GoError.wrapped
          ("max retries (" ++ toString cfg.maxRetries ++ ") exceeded")
          (GoError.httpStatus (code cfg.maxRetries) (st cfg.maxRetries) (bd cfg.maxRetries)))) := by
  have h := doWithRetryFrom_allRetryable cfg
    (liveEnv (fun k => (Except.error (GoError.httpStatus (code k) (st k) (bd k)) :
      Except GoError α)))
    (fun k => .httpStatus (code k) (st k) (bd k))
    (fun _ => rfl) (fun _ => rfl) (fun _ => rfl)
    (fun k => by
      rw [isRetryableError_httpStatus]
      rcases hcode k with h | h | h | h <;> simp [h])
    cfg.maxRetries 0
  simpa [doWithRetry] using h

/-- Witness for C1: with `MaxRetries = 2` and every attempt failing with
HTTP 503, the loop performs 3 attempts and wraps the last error. -/
theorem execute_retry_exhausts_on_retryable_status_witness :
    doWithRetry ⟨2, 1000000000, 30000000000, true⟩
        (liveEnv (fun _ => (Except.error (GoError.httpStatus 503 "503 Service Unavailable" []) :
          Except GoError Unit))) =
      (3, Except.error (GoError.wrapped
        ("max retries (" ++ toString (2 : Nat) ++ ") exceeded")
        (GoError.httpStatus 503 "503 Service Unavailable" []))) :=
  execute_retry_exhausts_on_retryable_status ⟨2, 1000000000, 30000000000, true⟩
    (fun _ => 503) (fun _ => "503 Service Unavailable") (fun _ => [])
    (fun _ => Or.inr (Or.inr (Or.inl rfl)))

/-- C4: if the first attempt fails with a non-retryable error — context
cancellation, deadline exceeded, or an HTTP status outside
{429, 502, 503, 504} — the retry loop performs exactly one attempt and
returns that error unchanged, consulting neither the backoff computation nor
the backoff-cancellation oracle (the result holds for every environment with
a live context, whatever its backoff behaviour). -/
theorem execute_single_attempt_on_nonretryable {α : Type}
    (cfg : RetryConfig) (env : RetryEnv α) (e : GoError)
    (hctx : env.ctxErr 0 = none)
    (h0 : env.op 0 = .error e)
    (he : e = .contextCanceled ∨ e = .deadlineExceeded ∨
        ∃ c s b, e = .httpStatus c s b ∧ c ≠ 429 ∧ c ≠ 502 ∧ c ≠ 503 ∧ c ≠ 504) :
    doWithRetry cfg env = (1, .error e) := by
  have hfalse : isRetryableError e = false := by
    rcases he with rfl | rfl | ⟨c, s, b, rfl, h1, h2, h3, h4⟩
    · exact isRetryableError_contextCanceled
    · exact isRetryableError_deadlineExceeded
    · rw [isRetryableError_httpStatus]
      simp [h1, h2, h3, h4]
  rw [doWithRetry, doWithRetryFrom]
  simp only [hctx, h0, hfalse]
  simp

/-- Witness for C4: a single HTTP 404 failure is returned after exactly one
attempt. -/
theorem execute_single_attempt_on_nonretryable_witness :
    doWithRetry ⟨3, 1000000000, 30000000000, true⟩
        (liveEnv (fun _ => (Except.error (GoError.httpStatus 404 "404 Not Found" []) :
          Except GoError Unit))) =
      (1, Except.error (GoError.httpStatus 404 "404 Not Found" [])) :=
  execute_single_attempt_on_nonretryable ⟨3, 1000000000, 30000000000, true⟩ _ _ rfl rfl
    (Or.inr (Or.inr ⟨404, "404 Not Found", [], rfl, by decide, by decide, by decide, by decide⟩))

/-- C3 counterexample: with `InitialBackoff = 1s`, `MaxBackoff = 10s` and
jitter enabled, take attempt `k = 4` and a middle random draw
(`randJ = jitterRange`, i.e. zero applied jitter).  The base delay is
`1s * 2^4 = 16s`, so the claimed lower bound `0.75 * 16s = 12s` exceeds
`MaxBackoff = 10s`; the code returns the cap `10s`, which does not lie in the
claimed interval `[12s, 10s]`.  (The draw is in range: `0 ≤ 4s < 2 * (16s/4)`.) -/
theorem calculateBackoff_jitter_interval_counterexample :
    (⟨3, 1000000000, 10000000000, true⟩ : RetryConfig).jitter = true
    ∧ 0 ≤ (4000000000 : Int)
    ∧ (4000000000 : Int) < 2 * Int.tdiv ((1000000000 : Int) * 2 ^ min 4 10) 4
    ∧ calculateBackoff 4 ⟨3, 1000000000, 10000000000, true⟩ 4000000000 = 10000000000
    ∧ ¬ ((1000000000 : Int) * 2 ^ min 4 10 * 3 / 4 ≤
          calculateBackoff 4 ⟨3, 1000000000, 10000000000, true⟩ 4000000000) := by
  refine ⟨rfl, by decide, by decide, by decide, by decide⟩

/-- C3 amended: with jitter disabled the delay is exactly
`min(initialBackoff * 2^min(k,10), maxBackoff)`; with jitter enabled and the
random draw `randJ` in its `[0, 2*(delay/4))` range, the delay lies within
`[min(0.75 * initialBackoff * 2^min(k,10), maxBackoff), maxBackoff]` — the
lower end is additionally clamped to `maxBackoff`, since the source applies
the `MaxBackoff` cap after jittering. -/
theorem calculateBackoff_bounds (attempt : Nat) (cfg : RetryConfig) (randJ : Int)
    (hpos : 0 < cfg.initialBackoff) :
    (cfg.jitter = false →
      calculateBackoff attempt cfg randJ =
        min (cfg.initialBackoff * 2 ^ min attempt 10) cfg.maxBackoff)
    ∧ (cfg.jitter = true →
      0 ≤ randJ →
      randJ < 2 * Int.tdiv (cfg.initialBackoff * 2 ^ min attempt 10) 4 →
      min (cfg.initialBackoff * 2 ^ min attempt 10 * 3 / 4) cfg.maxBackoff ≤
          calculateBackoff attempt cfg randJ
        ∧ calculateBackoff attempt cfg randJ ≤ cfg.maxBackoff) := by
  have hd : (0 : Int) ≤ cfg.initialBackoff * 2 ^ min attempt 10 :=
    le_of_lt (mul_pos hpos (pow_pos (by norm_num) _))
  constructor
  · intro hj
    simp [calculateBackoff, hj]
  · intro hj hr0 hr2
    rw [Int.tdiv_eq_ediv hd (by norm_num)] at hr2
    have hlow : cfg.initialBackoff * 2 ^ min attempt 10 * 3 / 4 ≤
        cfg.initialBackoff * 2 ^ min attempt 10 +
          (randJ - (cfg.initialBackoff * 2 ^ min attempt 10) / 4) := by
      omega
    constructor
    · simp only [calculateBackoff, hj, if_true]
      rw [Int.tdiv_eq_ediv hd (by norm_num)]
      exact min_le_min hlow (le_refl _)
    · simp only [calculateBackoff, hj, if_true]
      exact min_le_right _ _

/-- Witness for C3 amended: `initialBackoff = 8`, `maxBackoff = 100`,
attempt 0, draw 1: the jittered delay `8 + (1 - 2) = 7` lies within
`[min(6, 100), 100]`. -/
theorem calculateBackoff_bounds_witness :
    min ((8 : Int) * 2 ^ min 0 10 * 3 / 4) 100 ≤ calculateBackoff 0 ⟨3, 8, 100, true⟩ 1
    ∧ calculateBackoff 0 ⟨3, 8, 100, true⟩ 1 ≤ 100 :=
  (calculateBackoff_bounds 0 ⟨3, 8, 100, true⟩ 1 (by decide)).2 rfl (by decide) (by decide)

/-- C6 counterexample: an attempt that fails during request marshaling leaves
a previously healthy client healthy — `execute` returns before reaching any
`setHealthy` call — contradicting the claim that any failure of the attempt
leaves `IsHealthy()` false. -/
theorem execute_health_marshal_counterexample :
    (executeAttempt true (.marshalError (.other "bad payload"))).1 ≠ false := by
  decide

/-- C6 amended: after one `execute` attempt the health flag is: unchanged
when the attempt failed during marshaling, request preparation or HTTP-request
creation (those paths return before any health write); `false` on a transport
error, a non-OK status or a response-processing failure; `true` on success
(last write wins). -/
theorem executeAttempt_health_update (healthy : Bool) (o : ExecOutcome) :
    (executeAttempt healthy o).1 =
      match o with
      | .marshalError _ | .prepareError _ | .createRequestError _ => healthy
      | .success => true
      | _ => false := by
  cases o <;> rfl

/-- C8: `ExecuteStream` on an embeddings request fails with the
unsupported-streaming error having performed no marshal, no request
preparation and no HTTP attempt (empty effect list, for every environment —
in particular with no retry, the error being returned before any attempt);
for chat, vision and tools the streaming-support check passes and
`ExecuteStream` is exactly the single streaming attempt. -/
theorem executeStream_requires_streaming_support :
    (∀ (α : Type) (env : StreamEnv α),
      ExecuteStream Protocol.embeddings env =
        ([], .error (.other ("protocol " ++ Protocol.embeddings ++ " does not support streaming"))))
    ∧ (∀ (α : Type) (env : StreamEnv α), ExecuteStream Protocol.chat env = executeStream env)
    ∧ (∀ (α : Type) (env : StreamEnv α), ExecuteStream Protocol.vision env = executeStream env)
    ∧ (∀ (α : Type) (env : StreamEnv α), ExecuteStream Protocol.tools env = executeStream env) := by
  refine ⟨fun α env => rfl, fun α env => rfl, fun α env => rfl, fun α env => rfl⟩

/-- C9: constructing the Ollama provider from `http://host`, `http://host/`
and `http://host/v1` normalizes all three base URLs to the same value, and
chat-protocol endpoint resolution yields `http://host/v1/chat/completions`
for each. -/
theorem ollama_baseURL_normalization :
    ollamaEndpoint (normalizeOllamaBaseURL "http://host") Protocol.chat
        = .ok "http://host/v1/chat/completions"
    ∧ ollamaEndpoint (normalizeOllamaBaseURL "http://host/") Protocol.chat
        = .ok "http://host/v1/chat/completions"
    ∧ ollamaEndpoint (normalizeOllamaBaseURL "http://host/v1") Protocol.chat
        = .ok "http://host/v1/chat/completions" := by
  refine ⟨by decide, by decide, by decide⟩

/-- C10: vision marshaling of a payload with no messages fails with the
empty-messages error whatever the image list (this check precedes the
no-images and non-text-content checks). -/
theorem marshalVision_empty_messages (d : VisionData) (h : d.messages = []) :
    marshalVision d = .error "messages cannot be empty for vision requests" := by
  simp [marshalVision, h]

/-- Witness for C10: empty messages with two images supplied still fail. -/
theorem marshalVision_empty_messages_witness :
    marshalVision ⟨"model-x", [], ["http://img/1.png", "http://img/2.png"], [], []⟩ =
      .error "messages cannot be empty for vision requests" :=
  marshalVision_empty_messages ⟨"model-x", [], ["http://img/1.png", "http://img/2.png"], [], []⟩ rfl

/-- The Ollama worker stops at its actual termination marker — a line whose
trimmed form is the literal `data: [DONE]` — delivering nothing decoded after
it. -/
theorem ollamaProcessLines_stops_at_marker {α : Type} (parse : String → Option α)
    (pre post : List String) :
    ollamaProcessLines parse (pre ++ "data: [DONE]" :: post) = ollamaProcessLines parse pre := by
  induction pre with
  | nil =>
      rfl
  | cons l pre ih =>
      simp only [List.cons_append, ollamaProcessLines]
      by_cases h1 : goTrimSpace l = ""
      · simp [h1, ih]
      · by_cases h2 : goTrimSpace l = "data: [DONE]"
        · simp [h1, h2]
        · cases hp : parse (cutDataMarker (goTrimSpace l)) <;> simp [h1, h2, hp, ih]

/-- The Azure worker stops at its actual termination marker — a payload equal
to `[DONE]` after stripping the `data: ` marker — delivering nothing decoded
after it. -/
theorem azureProcessLines_stops_at_marker {α : Type} (parse : String → Option α)
    (pre post : List String) :
    azureProcessLines parse (pre ++ "data: [DONE]" :: post) = azureProcessLines parse pre := by
  induction pre with
  | nil =>
      rfl
  | cons l pre ih =>
      simp only [List.cons_append, azureProcessLines]
      by_cases h1 : goTrimSpace l = ""
      · simp [h1, ih]
      · by_cases h2 : goStartsWith (goTrimSpace l) "data: " = true
        · by_cases h3 : goDropLeft (goTrimSpace l) 6 = "[DONE]"
          · simp [h1, h2, h3]
          · cases hp : parse (goDropLeft (goTrimSpace l) 6) <;> simp [h1, h2, h3, hp, ih]
        · simp [h1, h2, ih]

/-- C2 counterexample: the markers the claim names do not terminate the
streams.  For the local (Ollama) worker a line equal to the literal
`stream-done` sentinel is not a marker (the marker is the line
`data: [DONE]`): a chunk decoded after it is still delivered, so the output
is `[1, 2]`, not the `[1]` the claim requires.  For the cloud (Azure) worker
a `[DONE]` payload behind an `event: ` marker is skipped, not a terminator
(the worker strips `data: `, not `event: `): again `[1, 2]`, not `[1]`. -/
theorem streamTermination_claimed_markers_counterexample :
    ollamaProcessLines sampleParse ["data: c1", "stream-done", "data: c2"] ≠ [1]
    ∧ azureProcessLines sampleParse ["data: c1", "event: [DONE]", "data: c2"] ≠ [1] := by
  refine ⟨by decide, by decide⟩

/-- C2 amended: the decode worker stops at the backend's termination marker —
for the local (Ollama) backend a line equal to the literal `data: [DONE]`,
for the cloud (Azure) backend a payload equal to `[DONE]` after stripping a
`data: ` marker — delivering every chunk decoded before the marker and none
after; in particular a body carrying `chunk1`, `chunk2`, then the termination
marker yields exactly two chunks and then the stream ends. -/
theorem streamTermination_markers :
    (∀ (α : Type) (parse : String → Option α) (pre post : List String),
      ollamaProcessLines parse (pre ++ "data: [DONE]" :: post) = ollamaProcessLines parse pre)
    ∧ (∀ (α : Type) (parse : String → Option α) (pre post : List String),
      azureProcessLines parse (pre ++ "data: [DONE]" :: post) = azureProcessLines parse pre)
    ∧ ollamaProcessLines sampleParse ["data: c1", "data: c2", "data: [DONE]"] = [1, 2]
    ∧ azureProcessLines sampleParse ["data: c1", "data: c2", "data: [DONE]"] = [1, 2] :=
  ⟨fun _ parse pre post => ollamaProcessLines_stops_at_marker parse pre post,
   fun _ parse pre post => azureProcessLines_stops_at_marker parse pre post,
   by decide, by decide⟩

/-- C7: a line that fails chunk decoding (and is not blank or a termination
marker — for Azure, a `data: `-marked line whose payload is not `[DONE]`) is
skipped: the stream's output is exactly as if the line were absent, so every
well-formed chunk before and after it is delivered in body-read order, the
stream is not terminated, and no error chunk is produced. -/
theorem streamSkipsMalformedLine :
    (∀ (α : Type) (parse : String → Option α) (m : String) (pre post : List String),
      goTrimSpace m ≠ "" →
      goTrimSpace m ≠ "data: [DONE]" →
      parse (cutDataMarker (goTrimSpace m)) = none →
      ollamaProcessLines parse (pre ++ m :: post) = ollamaProcessLines parse (pre ++ post))
    ∧ (∀ (α : Type) (parse : String → Option α) (m : String) (pre post : List String),
      goTrimSpace m ≠ "" →
      goStartsWith (goTrimSpace m) "data: " = true →
      goDropLeft (goTrimSpace m) 6 ≠ "[DONE]" →
      parse (goDropLeft (goTrimSpace m) 6) = none →
      azureProcessLines parse (pre ++ m :: post) = azureProcessLines parse (pre ++ post)) := by
  constructor
  · intro α parse m pre post hm1 hm2 hm3
    induction pre with
    | nil =>
        simp only [List.nil_append, ollamaProcessLines]
        simp [hm1, hm2, hm3]
    | cons l pre ih =>
        simp only [List.cons_append, ollamaProcessLines]
        by_cases h1 : goTrimSpace l = ""
        · simp [h1, ih]
        · by_cases h2 : goTrimSpace l = "data: [DONE]"
          · simp [h1, h2]
          · cases hp : parse (cutDataMarker (goTrimSpace l)) <;> simp [h1, h2, hp, ih]
  · intro α parse m pre post hm1 hm2 hm3 hm4
    induction pre with
    | nil =>
        simp only [List.nil_append, azureProcessLines]
        simp [hm1, hm2, hm3, hm4]
    | cons l pre ih =>
        simp only [List.cons_append, azureProcessLines]
        by_cases h1 : goTrimSpace l = ""
        · simp [h1, ih]
        · by_cases h2 : goStartsWith (goTrimSpace l) "data: " = true
          · by_cases h3 : goDropLeft (goTrimSpace l) 6 = "[DONE]"
            · simp [h1, h2, h3]
            · cases hp : parse (goDropLeft (goTrimSpace l) 6) <;> simp [h1, h2, h3, hp, ih]
          · simp [h1, h2, ih]

/-- Witness for C7: a malformed middle line (`data: oops`, which the sample
decoder rejects) leaves both workers' outputs equal to those for the body
without that line. -/
theorem streamSkipsMalformedLine_witness :
    ollamaProcessLines sampleParse (["data: c1"] ++ "data: oops" :: ["data: c2"]) =
      ollamaProcessLines sampleParse (["data: c1"] ++ ["data: c2"])
    ∧ azureProcessLines sampleParse (["data: c1"] ++ "data: oops" :: ["data: c2"]) =
      azureProcessLines sampleParse (["data: c1"] ++ ["data: c2"]) :=
  ⟨streamSkipsMalformedLine.1 Nat sampleParse "data: oops" ["data: c1"] ["data: c2"]
      (by decide) (by decide) (by decide),
   streamSkipsMalformedLine.2 Nat sampleParse "data: oops" ["data: c1"] ["data: c2"]
      (by decide) (by decide) (by decide) (by decide)⟩

/-- C5: when the last message's content is a plain string and at least one
image is supplied, `marshalVision` succeeds; its messages array is the input
array with only the last element replaced (the source writes into a fresh
copy, so the input list itself is untouched), the new last element keeps the
role and carries a structured content of exactly `n + 1` blocks for `n`
images — the original text first, then one image block per image URL in
input order — and every message before the last is unchanged. -/
theorem marshalVision_transforms_last (d : VisionData) (lastMsg : Message) (t : String)
    (hlast : d.messages.getLast? = some lastMsg)
    (htext : lastMsg.content = .text t)
    (himg : d.images ≠ []) :
    marshalVision d = .ok
      { model := d.model,
        messages := d.messages.set (d.messages.length - 1)
          ⟨lastMsg.role, .blocks (ContentBlock.textBlock t ::
            d.images.map (fun u => ContentBlock.imageBlock u d.visionOptions))⟩,
        options := d.options }
    ∧ (ContentBlock.textBlock t ::
        d.images.map (fun u => ContentBlock.imageBlock u d.visionOptions)).length
        = d.images.length + 1
    ∧ ∀ i, i < d.messages.length - 1 →
        (d.messages.set (d.messages.length - 1)
          ⟨lastMsg.role, .blocks (ContentBlock.textBlock t ::
            d.images.map (fun u => ContentBlock.imageBlock u d.visionOptions))⟩)[i]?
          = d.messages[i]? := by
  have hne : d.messages ≠ [] := by
    intro h
    rw [h] at hlast
    simp at hlast
  have hlen : d.messages.length ≠ 0 := by
    simpa using fun h => hne (List.length_eq_zero.mp h)
  have hgetD : d.messages.getD (d.messages.length - 1) ⟨"", .otherContent⟩ = lastMsg := by
    rw [List.getD_eq_getElem?_getD, ← List.getLast?_eq_getElem?, hlast]
    rfl
  have himglen : d.images.length ≠ 0 := by
    simpa using fun h => himg (List.length_eq_zero.mp h)
  refine ⟨?_, by simp, ?_⟩
  · simp only [marshalVision, if_neg hlen, if_neg himglen, hgetD, htext]
  · intro i hi
    rw [List.getElem?_set_ne]
    omega

/-- Witness for C5: one text message and two images produce a single message
whose content is `[text, image_url, image_url]`. -/
theorem marshalVision_transforms_last_witness :
    marshalVision ⟨"model-x", [⟨"user", .text "what is this"⟩],
        ["http://img/1.png", "http://img/2.png"], [], []⟩ =
      .ok { model := "model-x",
            messages := [⟨"user", .blocks [.textBlock "what is this",
              .imageBlock "http://img/1.png" [], .imageBlock "http://img/2.png" []]⟩],
            options := [] }
    ∧ ([ContentBlock.textBlock "what is this",
        .imageBlock "http://img/1.png" [], .imageBlock "http://img/2.png" []] : List ContentBlock).length = 2 + 1 :=
  have h := marshalVision_transforms_last
    ⟨"model-x", [⟨"user", .text "what is this"⟩],
      ["http://img/1.png", "http://img/2.png"], [], []⟩
    ⟨"user", .text "what is this"⟩ "what is this" rfl rfl (by decide)
  ⟨h.1, h.2.1⟩

end TauCore
